import Mathlib

/-
Verification of the role-targeted real-time broadcast core of the
PulseLink backend: the connection registry, the role-targeting
resolver, the event fan-out dispatcher (websocket_manager.py), the
connection lifecycle handler (the websocket endpoint in main.py) and
the mutation endpoints that trigger broadcasts (routes/alerts.py,
routes/reactions.py, routes/acknowledgments.py).

Channels (websockets) are modelled by numeric identifiers; whether a
send on a channel succeeds is an explicit parameter `sendOk`.  The
Python dict `active_connections` is modelled as an insertion-ordered
association list with pairwise-distinct keys.
-/

/-- One registered connection entry: the delivery channel handle and the
role cached at connect time, the value stored by
ConnectionManager.connect in websocket_manager.py. -/
structure ConnInfo where
  ws : Nat
  role : String
deriving DecidableEq, Repr

/-- The dict ConnectionManager.active_connections mapping user id to
connection info, as an insertion-ordered association list. -/
abbrev Registry := List (Nat × ConnInfo)

/-- Python dict key invariant: the keys are pairwise distinct. -/
def uniqueKeys (reg : Registry) : Prop :=
  (reg.map Prod.fst).Nodup

instance (reg : Registry) : Decidable (uniqueKeys reg) := by
  unfold uniqueKeys; infer_instance

/-- Python dict read: the value stored under `uid`, if any. -/
def dictGet : Registry → Nat → Option ConnInfo
  | [], _ => none
  | p :: rest, uid => if p.1 == uid then some p.2 else dictGet rest uid

/-- Python dict assignment: replace the entry in place when the key is
present (dict insertion order keeps the key position), append at the
end otherwise. -/
def dictSet : Registry → Nat → ConnInfo → Registry
  | [], uid, v => [(uid, v)]
  | p :: rest, uid, v =>
    if p.1 == uid then (uid, v) :: rest else p :: dictSet rest uid v

/-- Python `del` of a key, guarded by a membership test as in the source
(deleting an absent key is a no-op here). -/
def dictDel (reg : Registry) (uid : Nat) : Registry :=
  reg.filter (fun p => p.1 != uid)

/-- ConnectionManager.connect: accept the socket and store
`{'ws': websocket, 'role': user_role}` under `user_id`. -/
def connect (reg : Registry) (websocket : Nat) (user_id : Nat)
    (user_role : String) : Registry :=
  dictSet reg user_id ⟨websocket, user_role⟩

/-- ConnectionManager.disconnect(websocket, user_id): the websocket
argument is ignored by the source; the entry for `user_id` is deleted
when present, silently otherwise. -/
def disconnect (reg : Registry) (websocket : Nat) (user_id : Nat) : Registry :=
  dictDel reg user_id

/-- ConnectionManager.get_active_users_count. -/
def get_active_users_count (reg : Registry) : Nat :=
  reg.length

/-- Python str.lower, character by character (the role strings handled
by the program are ASCII, on which this agrees with the source). -/
def pyLower (s : String) : String :=
  ⟨s.data.map Char.toLower⟩

/-- The role-normalization loop of broadcast_alert: lowercase each
entry and map the plural "students" to "student" (the only alias). -/
def normalizeRoles (target_roles : List String) : List String :=
  target_roles.map (fun role =>
    let role_lower := pyLower role
    if role_lower = "students" then "student" else role_lower)

/-- The `if not target_roles: target_roles = ["all"]` default of
broadcast_alert, with the Python default argument None. -/
def effectiveTargetRoles : Option (List String) → List String
  | none => ["all"]
  | some ts => if ts.isEmpty then ["all"] else ts

/-- Per-pass outcome of the fan-out loop over the registry: the send
attempts in iteration order (user id, channel), the ids whose send
succeeded, and the disconnected_users list collected from failures. -/
structure FanoutLists where
  attempted : List (Nat × Nat)
  delivered : List Nat
  dead : List Nat
deriving DecidableEq, Repr

/-- The `for user_id, connection_info in active_connections.items()`
loop shared by the four broadcast methods. `shouldReceive` selects
which entries are sent to; `sendOk` tells whether send_json succeeds
on a channel (false = the send raises, caught by the except clause,
and the user id is recorded in disconnected_users). -/
def fanout (sendOk : Nat → Bool) (shouldReceive : ConnInfo → Bool) :
    Registry → FanoutLists
  | [] => ⟨[], [], []⟩
  | p :: rest =>
    let r := fanout sendOk shouldReceive rest
    if shouldReceive p.2 then
      if sendOk p.2.ws then
        ⟨(p.1, p.2.ws) :: r.attempted, p.1 :: r.delivered, r.dead⟩
      else
        ⟨(p.1, p.2.ws) :: r.attempted, r.delivered, p.1 :: r.dead⟩
    else r

/-- The purge loop after the fan-out:
`for user_id in disconnected_users: if user_id in ...: del ...`. -/
def purgeDead (reg : Registry) (dead : List Nat) : Registry :=
  dead.foldl (fun r uid => dictDel r uid) reg

/-- Result of one broadcast method call: the event-type discriminator
put in the payload, the fan-out lists, and the registry after the
dead-connection purge. -/
structure BroadcastResult where
  eventType : String
  attempted : List (Nat × Nat)
  delivered : List Nat
  dead : List Nat
  conns : Registry
deriving DecidableEq, Repr

/-- The per-entry `should_receive = broadcast_to_all or user_role in
normalized_roles` test of broadcast_alert. -/
def alertShouldReceive (target_roles : Option (List String))
    (info : ConnInfo) : Bool :=
  let normalized_roles := normalizeRoles (effectiveTargetRoles target_roles)
  let broadcast_to_all := normalized_roles.contains "all"
  broadcast_to_all || normalized_roles.contains info.role

/-- ConnectionManager.broadcast_alert: normalize target_roles, send the
"new_alert" payload to every connection whose role is targeted (or to
all when the normalized roles contain "all"), then purge the dead. -/
def broadcast_alert (reg : Registry) (sendOk : Nat → Bool)
    (target_roles : Option (List String)) : BroadcastResult :=
  let fl := fanout sendOk (alertShouldReceive target_roles) reg
  ⟨"new_alert", fl.attempted, fl.delivered, fl.dead, purgeDead reg fl.dead⟩

/-- ConnectionManager.broadcast_reaction: send the "reaction_update"
payload to every connection, unscoped, then purge the dead. -/
def broadcast_reaction (reg : Registry) (sendOk : Nat → Bool) : BroadcastResult :=
  let fl := fanout sendOk (fun _ => true) reg
  ⟨"reaction_update", fl.attempted, fl.delivered, fl.dead, purgeDead reg fl.dead⟩

/-- ConnectionManager.broadcast_alert_deletion: send the "alert_deleted"
payload to every connection, unscoped, then purge the dead. -/
def broadcast_alert_deletion (reg : Registry) (sendOk : Nat → Bool)
    (alert_id : Nat) : BroadcastResult :=
  let fl := fanout sendOk (fun _ => true) reg
  ⟨"alert_deleted", fl.attempted, fl.delivered, fl.dead, purgeDead reg fl.dead⟩

/-- ConnectionManager.broadcast_acknowledgment: send the
"acknowledgment_update" payload to every connection, unscoped, then
purge the dead. -/
def broadcast_acknowledgment (reg : Registry) (sendOk : Nat → Bool) : BroadcastResult :=
  let fl := fanout sendOk (fun _ => true) reg
  ⟨"acknowledgment_update", fl.attempted, fl.delivered, fl.dead, purgeDead reg fl.dead⟩

/-- A sequence of connect calls, each a (user_id, websocket, role)
triple, applied to the registry in order. -/
def applyConnects (reg : Registry) : List (Nat × Nat × String) → Registry
  | [] => reg
  | c :: cs => applyConnects (connect reg c.2.1 c.1 c.2.2) cs

/-- The (websocket, role) of the most recent call for a given user id
in a call sequence, if any. -/
def lastCallFor (uid : Nat) : List (Nat × Nat × String) → Option (Nat × String)
  | [] => none
  | c :: cs =>
    match lastCallFor uid cs with
    | some r => some r
    | none => if c.1 == uid then some c.2 else none

/-! Connection lifecycle handler: the websocket endpoint of main.py. -/

/-- The fields of auth.TokenData relevant to the handshake. -/
structure TokenData where
  user_id : Nat
  username : String
  role : String
deriving DecidableEq, Repr

/-- The user record fetched from the database during the handshake:
its role string and its is_active flag. -/
structure UserRec where
  role : String
  is_active : Bool
deriving DecidableEq, Repr

/-- Terminal outcome of one handshake attempt: the transport is closed
with a code and reason, or the connection is registered for a role. -/
inductive WsOutcome where
  | closed (code : Nat) (reason : String)
  | connected (role : String)
deriving DecidableEq, Repr

/-- The websocket endpoint of main.py: validate the query token, the
decoded token identity against the path user_id, and the user's
existence and active status, closing with a distinct reason at each
failure; only when all checks pass is the connection registered.
`decode` abstracts decode_access_token (none = the decode raised) and
`findUser` the user-store lookup. -/
def websocket_endpoint (reg : Registry) (websocket : Nat) (user_id : Nat)
    (token : Option String) (decode : String → Option TokenData)
    (findUser : Nat → Option UserRec) : Registry × WsOutcome :=
  match token with
  | none => (reg, WsOutcome.closed 1008 "No token provided")
  | some t =>
    match decode t with
    | none => (reg, WsOutcome.closed 1008 "Invalid token")
    | some token_data =>
      if token_data.user_id != user_id then
        (reg, WsOutcome.closed 1008 "Token user_id mismatch")
      else
        match findUser user_id with
        | none => (reg, WsOutcome.closed 1008 "User not found")
        | some user =>
          if user.is_active = false then
            (reg, WsOutcome.closed 1008 "Account deactivated")
          else
            (connect reg websocket user_id user.role,
              WsOutcome.connected user.role)

/-! Exception-level model of the fan-out: send_json can raise and the
try/except in each broadcast method catches it per entry. -/

/-- websocket.send_json viewed in the error monad: raises exactly when
the channel rejects the send. -/
def send_json (sendOk : Nat → Bool) (ws : Nat) : Except String Unit :=
  if sendOk ws then Except.ok () else Except.error "connection closed"

/-- The fan-out loop with the send failure as an explicit exception:
the except clause around send_json turns an error into an entry of
disconnected_users and the loop continues, so no exception escapes
the loop body. -/
def fanoutE (sendOk : Nat → Bool) (shouldReceive : ConnInfo → Bool) :
    Registry → Except String FanoutLists
  | [] => Except.ok ⟨[], [], []⟩
  | p :: rest => do
    let r ← fanoutE sendOk shouldReceive rest
    if shouldReceive p.2 then
      match send_json sendOk p.2.ws with
      | Except.ok _ =>
        Except.ok ⟨(p.1, p.2.ws) :: r.attempted, p.1 :: r.delivered, r.dead⟩
      | Except.error _ =>
        Except.ok ⟨(p.1, p.2.ws) :: r.attempted, r.delivered, p.1 :: r.dead⟩
    else Except.ok r

/-- broadcast_alert in the error monad. -/
def broadcast_alertE (reg : Registry) (sendOk : Nat → Bool)
    (target_roles : Option (List String)) : Except String BroadcastResult := do
  let fl ← fanoutE sendOk (alertShouldReceive target_roles) reg
  Except.ok ⟨"new_alert", fl.attempted, fl.delivered, fl.dead,
    purgeDead reg fl.dead⟩

/-- broadcast_reaction in the error monad. -/
def broadcast_reactionE (reg : Registry) (sendOk : Nat → Bool) :
    Except String BroadcastResult := do
  let fl ← fanoutE sendOk (fun _ => true) reg
  Except.ok ⟨"reaction_update", fl.attempted, fl.delivered, fl.dead,
    purgeDead reg fl.dead⟩

/-- broadcast_alert_deletion in the error monad. -/
def broadcast_alert_deletionE (reg : Registry) (sendOk : Nat → Bool)
    (alert_id : Nat) : Except String BroadcastResult := do
  let fl ← fanoutE sendOk (fun _ => true) reg
  Except.ok ⟨"alert_deleted", fl.attempted, fl.delivered, fl.dead,
    purgeDead reg fl.dead⟩

/-- broadcast_acknowledgment in the error monad. -/
def broadcast_acknowledgmentE (reg : Registry) (sendOk : Nat → Bool) :
    Except String BroadcastResult := do
  let fl ← fanoutE sendOk (fun _ => true) reg
  Except.ok ⟨"acknowledgment_update", fl.attempted, fl.delivered, fl.dead,
    purgeDead reg fl.dead⟩

/-! Mutation endpoints: the order of durable writes, commits and
broadcast calls, read off the route handlers. -/

/-- One observable action of a mutation endpoint, in program order. -/
inductive Act where
  | dbWrite (desc : String)
  | dbCommit
  | wsBroadcast (eventType : String)
deriving DecidableEq, Repr

/-- routes/alerts.py create_alert: insert the alert, commit, then
broadcast_alert. `allowed` is whether validate_target_roles passed
(it raises a 403 before any write otherwise). -/
def create_alert_trace (allowed : Bool) : List Act :=
  if allowed then
    [Act.dbWrite "insert alert", Act.dbCommit, Act.wsBroadcast "new_alert"]
  else []

/-- routes/alerts.py delete_alert: deactivate, commit, then
broadcast_alert_deletion. `found` is whether the alert exists (a 404
is raised before any write otherwise). -/
def delete_alert_trace (found : Bool) : List Act :=
  if found then
    [Act.dbWrite "deactivate alert", Act.dbCommit,
      Act.wsBroadcast "alert_deleted"]
  else []

/-- routes/alerts.py permanent_delete_alert: delete the alert and its
children, commit, then broadcast_alert_deletion. -/
def permanent_delete_alert_trace (found : Bool) : List Act :=
  if found then
    [Act.dbWrite "delete alert and children", Act.dbCommit,
      Act.wsBroadcast "alert_deleted"]
  else []

/-- routes/reactions.py add_reaction: insert, commit, then
broadcast_reaction. `ok` is whether the alert exists and the reaction
is not a duplicate (an HTTPException is raised before any write
otherwise). -/
def add_reaction_trace (ok : Bool) : List Act :=
  if ok then
    [Act.dbWrite "insert reaction", Act.dbCommit,
      Act.wsBroadcast "reaction_update"]
  else []

/-- routes/reactions.py remove_reaction: delete, commit, then
broadcast_reaction. -/
def remove_reaction_trace (found : Bool) : List Act :=
  if found then
    [Act.dbWrite "delete reaction", Act.dbCommit,
      Act.wsBroadcast "reaction_update"]
  else []

/-- routes/acknowledgments.py acknowledge_alert: insert, commit, then
broadcast_acknowledgment; nothing at all when the alert is missing or
the acknowledgment already exists. -/
def acknowledge_alert_trace (found : Bool) (already : Bool) : List Act :=
  if found then
    if already then []
    else
      [Act.dbWrite "insert acknowledgment", Act.dbCommit,
        Act.wsBroadcast "acknowledgment_update"]
  else []

/-- The per-alert loop body of routes/alerts.py bulk_delete_alerts:
for each requested alert that exists and is active, deactivate it and
immediately broadcast its deletion; no commit inside the loop. -/
def bulkDeleteWrites : List Bool → List Act
  | [] => []
  | active :: rest =>
    if active then
      Act.dbWrite "deactivate alert" :: Act.wsBroadcast "alert_deleted" ::
        bulkDeleteWrites rest
    else bulkDeleteWrites rest

/-- routes/alerts.py bulk_delete_alerts: the loop over the requested
alert ids (each entry of `alerts` tells whether that id was found
active), followed by the single db.commit() after the loop. -/
def bulk_delete_alerts_trace (alerts : List Bool) : List Act :=
  bulkDeleteWrites alerts ++ [Act.dbCommit]

/-- Every wsBroadcast in the trace happens after some dbCommit
(`seen` carries whether a commit has already occurred). -/
def broadcastsAfterCommit (seen : Bool) : List Act → Bool
  | [] => true
  | Act.dbCommit :: rest => broadcastsAfterCommit true rest
  | Act.wsBroadcast _ :: rest => seen && broadcastsAfterCommit seen rest
  | Act.dbWrite _ :: rest => broadcastsAfterCommit seen rest

def isBroadcastAct : Act → Bool
  | Act.wsBroadcast _ => true
  | _ => false

/-! Interleaved execution of the broadcast loop.  The source iterates
self.active_connections.items() directly, not a copy: each `await
websocket.send_json` is a suspension point at which a concurrent task
may run.  `mutate` gives the registry mutation performed by other tasks
at the suspension point after the i-th send.  A Python dict raises if
its key set changes during iteration, so the modelled mutations are
the key-preserving ones (a connect that replaces an existing entry);
iteration then visits the initial keys in order and reads the value
current at visit time. -/
def liveFanout (sendOk : Nat → Bool) (shouldReceive : ConnInfo → Bool)
    (mutate : Nat → Registry → Registry) :
    Registry → Nat → List Nat → List (Nat × Nat) × List Nat × Registry
  | cur, _, [] => ([], [], cur)
  | cur, i, k :: ks =>
    match dictGet cur k with
    | none => liveFanout sendOk shouldReceive mutate cur i ks
    | some info =>
      if shouldReceive info then
        let rest := liveFanout sendOk shouldReceive mutate (mutate i cur) (i + 1) ks
        ((k, info.ws) :: rest.1,
          (if sendOk info.ws then rest.2.1 else k :: rest.2.1), rest.2.2)
      else liveFanout sendOk shouldReceive mutate cur i ks

/-- broadcast_alert executed over the live table with interleaved
mutations `mutate`: returns the registry after the purge loop and the
send attempts (user id, channel written to). -/
def broadcast_alert_live (reg : Registry) (sendOk : Nat → Bool)
    (target_roles : Option (List String))
    (mutate : Nat → Registry → Registry) : Registry × List (Nat × Nat) :=
  let r := liveFanout sendOk (alertShouldReceive target_roles) mutate reg 0
    (reg.map Prod.fst)
  (purgeDead r.2.2 r.2.1, r.1)

example :
    (broadcast_alert [(1, ⟨10, "student"⟩), (2, ⟨20, "faculty"⟩)]
      (fun _ => true) (some ["Students"])).delivered = [1] := by decide

example :
    (broadcast_alert [(1, ⟨10, "student"⟩), (2, ⟨20, "faculty"⟩)]
      (fun _ => true) none).delivered = [1, 2] := by decide

example :
    (broadcast_reaction [(1, ⟨10, "student"⟩), (2, ⟨20, "faculty"⟩)]
      (fun ws => ws != 10)).conns = [(2, ⟨20, "faculty"⟩)] := by decide

/-! Structural lemmas about the fan-out loop and the registry. -/

theorem fanout_attempted (sendOk : Nat → Bool) (f : ConnInfo → Bool)
    (reg : Registry) :
    (fanout sendOk f reg).attempted =
      (reg.filter (fun p => f p.2)).map (fun p => (p.1, p.2.ws)) := by
  induction reg with
  | nil => rfl
  | cons p rest ih =>
    simp only [fanout, List.filter_cons]
    by_cases h : f p.2 <;> by_cases h2 : sendOk p.2.ws <;> simp [h, h2, ih]

theorem fanout_delivered (sendOk : Nat → Bool) (f : ConnInfo → Bool)
    (reg : Registry) :
    (fanout sendOk f reg).delivered =
      (reg.filter (fun p => f p.2 && sendOk p.2.ws)).map Prod.fst := by
  induction reg with
  | nil => rfl
  | cons p rest ih =>
    simp only [fanout, List.filter_cons]
    by_cases h : f p.2 <;> by_cases h2 : sendOk p.2.ws <;> simp [h, h2, ih]

theorem fanout_dead (sendOk : Nat → Bool) (f : ConnInfo → Bool)
    (reg : Registry) :
    (fanout sendOk f reg).dead =
      (reg.filter (fun p => f p.2 && !sendOk p.2.ws)).map Prod.fst := by
  induction reg with
  | nil => rfl
  | cons p rest ih =>
    simp only [fanout, List.filter_cons]
    by_cases h : f p.2 <;> by_cases h2 : sendOk p.2.ws <;> simp [h, h2, ih]

theorem uniqueKeys_cons {p : Nat × ConnInfo} {rest : Registry}
    (h : uniqueKeys (p :: rest)) :
    p.1 ∉ rest.map Prod.fst ∧ uniqueKeys rest := by
  simpa [uniqueKeys, List.nodup_cons] using h

theorem key_inj {reg : Registry} (h : uniqueKeys reg) {uid : Nat}
    {a b : ConnInfo} (ha : (uid, a) ∈ reg) (hb : (uid, b) ∈ reg) : a = b := by
  induction reg with
  | nil => cases ha
  | cons p rest ih =>
    obtain ⟨hnot, hrest⟩ := uniqueKeys_cons h
    rcases List.mem_cons.mp ha with ha1 | ha1 <;>
      rcases List.mem_cons.mp hb with hb1 | hb1
    · rw [← ha1] at hb1; exact (Prod.mk.injEq _ _ _ _ ▸ hb1).2.symm
    · exfalso; apply hnot
      rw [← ha1]
      exact List.mem_map.mpr ⟨(uid, b), hb1, rfl⟩
    · exfalso; apply hnot
      rw [← hb1]
      exact List.mem_map.mpr ⟨(uid, a), ha1, rfl⟩
    · exact ih hrest ha1 hb1

theorem mem_fst_filter_iff {reg : Registry} (h : uniqueKeys reg) {uid : Nat}
    {info : ConnInfo} (hmem : (uid, info) ∈ reg) (q : Nat × ConnInfo → Bool) :
    uid ∈ (reg.filter q).map Prod.fst ↔ q (uid, info) = true := by
  constructor
  · intro hu
    rcases List.mem_map.mp hu with ⟨p, hp, hfst⟩
    rcases List.mem_filter.mp hp with ⟨hpreg, hq⟩
    obtain ⟨p1, p2⟩ := p
    cases hfst
    have : p2 = info := key_inj h hpreg hmem
    rw [← this]
    exact hq
  · intro hq
    exact List.mem_map.mpr ⟨(uid, info), List.mem_filter.mpr ⟨hmem, hq⟩, rfl⟩

theorem mem_pair_filter_iff {reg : Registry} (h : uniqueKeys reg) {uid : Nat}
    {info : ConnInfo} (hmem : (uid, info) ∈ reg) (q : Nat × ConnInfo → Bool) :
    (uid, info.ws) ∈ (reg.filter q).map (fun p => (p.1, p.2.ws)) ↔
      q (uid, info) = true := by
  constructor
  · intro hu
    rcases List.mem_map.mp hu with ⟨p, hp, hfst⟩
    rcases List.mem_filter.mp hp with ⟨hpreg, hq⟩
    obtain ⟨p1, p2⟩ := p
    have h1 : p1 = uid := congrArg Prod.fst hfst
    cases h1
    have : p2 = info := key_inj h hpreg hmem
    rw [← this]
    exact hq
  · intro hq
    exact List.mem_map.mpr ⟨(uid, info), List.mem_filter.mpr ⟨hmem, hq⟩, rfl⟩

theorem purgeDead_eq_filter (reg : Registry) (dead : List Nat) :
    purgeDead reg dead = reg.filter (fun p => !(dead.contains p.1)) := by
  induction dead generalizing reg with
  | nil => simp [purgeDead]
  | cons d ds ih =>
    show purgeDead (dictDel reg d) ds = _
    rw [ih]
    unfold dictDel
    rw [List.filter_filter]
    apply List.filter_congr
    intro p _
    simp only [List.contains_cons, Bool.not_or, bne]
    rw [Bool.and_comm]

theorem length_filter_split {α : Type} (l : List α) (q : α → Bool) :
    (l.filter q).length + (l.filter (fun a => !q a)).length = l.length := by
  induction l with
  | nil => rfl
  | cons a t ih =>
    by_cases h : q a <;> simp [List.filter_cons, h, ← ih] <;> omega

theorem mem_dead_iff {reg : Registry} (h : uniqueKeys reg)
    {sendOk : Nat → Bool} {f : ConnInfo → Bool} {uid : Nat} {info : ConnInfo}
    (hmem : (uid, info) ∈ reg) :
    uid ∈ (fanout sendOk f reg).dead ↔ (f info && !sendOk info.ws) = true := by
  rw [fanout_dead]
  exact mem_fst_filter_iff h hmem _

theorem mem_delivered_iff {reg : Registry} (h : uniqueKeys reg)
    {sendOk : Nat → Bool} {f : ConnInfo → Bool} {uid : Nat} {info : ConnInfo}
    (hmem : (uid, info) ∈ reg) :
    uid ∈ (fanout sendOk f reg).delivered ↔
      (f info && sendOk info.ws) = true := by
  rw [fanout_delivered]
  exact mem_fst_filter_iff h hmem _

theorem purge_fanout_dead_eq_filter {reg : Registry} (h : uniqueKeys reg)
    (sendOk : Nat → Bool) (f : ConnInfo → Bool) :
    purgeDead reg (fanout sendOk f reg).dead =
      reg.filter (fun p => !(f p.2 && !sendOk p.2.ws)) := by
  rw [purgeDead_eq_filter]
  apply List.filter_congr
  intro p hp
  obtain ⟨uid, info⟩ := p
  congr 1
  have hiff := @mem_dead_iff reg h sendOk f uid info hp
  exact Bool.coe_iff_coe.mp (List.elem_iff.trans hiff)

theorem normalizeRoles_all : normalizeRoles ["all"] = ["all"] := by decide

/-- The wording of the targeting claim coincides with the source's
should_receive test. -/
theorem targeting_rhs_iff (target_roles : Option (List String)) (role : String) :
    (target_roles = none ∨ target_roles = some [] ∨
      "all" ∈ normalizeRoles (effectiveTargetRoles target_roles) ∨
      role ∈ normalizeRoles (effectiveTargetRoles target_roles)) ↔
    alertShouldReceive target_roles ⟨0, role⟩ = true := by
  cases target_roles with
  | none =>
    simp [effectiveTargetRoles, normalizeRoles_all, alertShouldReceive,
      List.contains_cons]
  | some ts =>
    cases ts with
    | nil =>
      simp [effectiveTargetRoles, normalizeRoles_all, alertShouldReceive,
        List.contains_cons]
    | cons t ts =>
      simp [effectiveTargetRoles, alertShouldReceive, Bool.or_eq_true,
        List.elem_iff]

theorem alertShouldReceive_role (target_roles : Option (List String))
    (info : ConnInfo) :
    alertShouldReceive target_roles info =
      alertShouldReceive target_roles ⟨0, info.role⟩ := rfl

/-- C1: for a broadcast_alert fan-out over a registry with distinct
keys, a registered entry is sent the AlertCreated event exactly when
target_roles is absent or empty (both treated as ["all"]), or the
normalization of target_roles contains "all", or the entry's stored
role is a member of the normalized sequence; when the entry's channel
accepts the send, the same condition characterizes delivery. -/
theorem broadcast_alert_targeting (reg : Registry) (sendOk : Nat → Bool)
    (target_roles : Option (List String)) (uid : Nat) (info : ConnInfo)
    (h : uniqueKeys reg) (hmem : (uid, info) ∈ reg) :
    ((uid, info.ws) ∈ (broadcast_alert reg sendOk target_roles).attempted ↔
      (target_roles = none ∨ target_roles = some [] ∨
        "all" ∈ normalizeRoles (effectiveTargetRoles target_roles) ∨
        info.role ∈ normalizeRoles (effectiveTargetRoles target_roles)))
    ∧ (sendOk info.ws = true →
      (uid ∈ (broadcast_alert reg sendOk target_roles).delivered ↔
        (target_roles = none ∨ target_roles = some [] ∨
          "all" ∈ normalizeRoles (effectiveTargetRoles target_roles) ∨
          info.role ∈ normalizeRoles (effectiveTargetRoles target_roles)))) := by
  constructor
  · show (uid, info.ws) ∈
      (fanout sendOk (alertShouldReceive target_roles) reg).attempted ↔ _
    rw [fanout_attempted]
    refine (mem_pair_filter_iff h hmem _).trans ?_
    rw [alertShouldReceive_role]
    exact (targeting_rhs_iff target_roles info.role).symm
  · intro hsend
    show uid ∈
      (fanout sendOk (alertShouldReceive target_roles) reg).delivered ↔ _
    refine (mem_delivered_iff h hmem).trans ?_
    rw [hsend, Bool.and_true, alertShouldReceive_role]
    exact (targeting_rhs_iff target_roles info.role).symm

/-- Witness for C1 at a concrete registry: the student entry is in
scope of target_roles = ["Students"] and is delivered. -/
theorem broadcast_alert_targeting_witness :
    1 ∈ (broadcast_alert [(1, ⟨10, "student"⟩), (2, ⟨20, "faculty"⟩)]
      (fun _ => true) (some ["Students"])).delivered :=
  ((broadcast_alert_targeting [(1, ⟨10, "student"⟩), (2, ⟨20, "faculty"⟩)]
      (fun _ => true) (some ["Students"]) 1 ⟨10, "student"⟩
      (by decide) (by decide)).2 rfl).mpr (by decide)

/-- C2: broadcast_alert is isolated against send failures: writing D
for the in-scope entries whose channel fails the send, every in-scope
entry with a live channel is still delivered to, the resulting
registry is exactly the original with the D entries removed (all
other entries unchanged, in order), and the connection count drops by
exactly the size of D. -/
theorem broadcast_alert_failure_isolation (reg : Registry)
    (sendOk : Nat → Bool) (target_roles : Option (List String))
    (h : uniqueKeys reg) :
    (∀ p ∈ reg, alertShouldReceive target_roles p.2 = true →
      sendOk p.2.ws = true →
      p.1 ∈ (broadcast_alert reg sendOk target_roles).delivered)
    ∧ (broadcast_alert reg sendOk target_roles).conns =
        reg.filter (fun p =>
          !(alertShouldReceive target_roles p.2 && !sendOk p.2.ws))
    ∧ get_active_users_count
          (broadcast_alert reg sendOk target_roles).conns +
        (reg.filter (fun p =>
          alertShouldReceive target_roles p.2 && !sendOk p.2.ws)).length =
        get_active_users_count reg := by
  refine ⟨?_, ?_, ?_⟩
  · intro p hp hscope hsend
    obtain ⟨uid, info⟩ := p
    show uid ∈
      (fanout sendOk (alertShouldReceive target_roles) reg).delivered
    exact (mem_delivered_iff h hp).mpr (by rw [hscope, hsend]; rfl)
  · show purgeDead reg
      (fanout sendOk (alertShouldReceive target_roles) reg).dead = _
    exact purge_fanout_dead_eq_filter h sendOk _
  · show (purgeDead reg
      (fanout sendOk (alertShouldReceive target_roles) reg).dead).length + _ =
        reg.length
    rw [purge_fanout_dead_eq_filter h sendOk _, Nat.add_comm]
    exact length_filter_split reg _

/-- Witness for C2: three recipients, the second's channel fails;
the first and third are delivered to and the count drops by one. -/
theorem broadcast_alert_failure_isolation_witness :
    1 ∈ (broadcast_alert
        [(1, ⟨10, "student"⟩), (2, ⟨20, "student"⟩), (3, ⟨30, "student"⟩)]
        (fun ws => ws != 20) none).delivered ∧
    (broadcast_alert
        [(1, ⟨10, "student"⟩), (2, ⟨20, "student"⟩), (3, ⟨30, "student"⟩)]
        (fun ws => ws != 20) none).conns =
      [(1, ⟨10, "student"⟩), (3, ⟨30, "student"⟩)] := by
  have h := broadcast_alert_failure_isolation
    [(1, ⟨10, "student"⟩), (2, ⟨20, "student"⟩), (3, ⟨30, "student"⟩)]
    (fun ws => ws != 20) none (by decide)
  exact ⟨h.1 (1, ⟨10, "student"⟩) (by decide) (by decide) (by decide),
    by rw [h.2.1]; decide⟩

/-- C3: the reaction, acknowledgment and deletion broadcasts are
unscoped: a registered entry is delivered to exactly when its channel
accepts the send, whatever its role; an AlertCreated broadcast with
target_roles = ["faculty"] delivers to an entry exactly when its
channel accepts the send and its stored role is "faculty". -/
theorem unscoped_vs_scoped_broadcast (reg : Registry) (sendOk : Nat → Bool)
    (alert_id : Nat) (uid : Nat) (info : ConnInfo)
    (h : uniqueKeys reg) (hmem : (uid, info) ∈ reg) :
    (uid ∈ (broadcast_reaction reg sendOk).delivered ↔ sendOk info.ws = true)
    ∧ (uid ∈ (broadcast_acknowledgment reg sendOk).delivered ↔
        sendOk info.ws = true)
    ∧ (uid ∈ (broadcast_alert_deletion reg sendOk alert_id).delivered ↔
        sendOk info.ws = true)
    ∧ (uid ∈ (broadcast_alert reg sendOk (some ["faculty"])).delivered ↔
        (sendOk info.ws = true ∧ info.role = "faculty")) := by
  refine ⟨?_, ?_, ?_, ?_⟩
  · show uid ∈ (fanout sendOk (fun _ => true) reg).delivered ↔ _
    refine (mem_delivered_iff h hmem).trans ?_
    rw [Bool.true_and]
  · show uid ∈ (fanout sendOk (fun _ => true) reg).delivered ↔ _
    refine (mem_delivered_iff h hmem).trans ?_
    rw [Bool.true_and]
  · show uid ∈ (fanout sendOk (fun _ => true) reg).delivered ↔ _
    refine (mem_delivered_iff h hmem).trans ?_
    rw [Bool.true_and]
  · show uid ∈
      (fanout sendOk (alertShouldReceive (some ["faculty"])) reg).delivered ↔ _
    refine (mem_delivered_iff h hmem).trans ?_
    have hsr : alertShouldReceive (some ["faculty"]) info =
        (info.role == "faculty") := by
      show (List.contains ["faculty"] "all" || _) = _
      simp only [alertShouldReceive, effectiveTargetRoles, normalizeRoles,
        pyLower, List.contains_cons]
      by_cases hfe : info.role = "faculty" <;> simp [hfe]
    rw [hsr]
    constructor
    · intro hb
      have h1 := (Bool.and_eq_true _ _).mp hb
      exact ⟨h1.2, by simpa using h1.1⟩
    · intro ⟨h1, h2⟩
      rw [h1, h2]
      simp

/-- Witness for C3: one student and one faculty connection; the
reaction broadcast reaches the student, the scoped faculty alert does
not. -/
theorem unscoped_vs_scoped_broadcast_witness :
    (1 ∈ (broadcast_reaction [(1, ⟨10, "student"⟩), (2, ⟨20, "faculty"⟩)]
        (fun _ => true)).delivered) ∧
    ¬(1 ∈ (broadcast_alert [(1, ⟨10, "student"⟩), (2, ⟨20, "faculty"⟩)]
        (fun _ => true) (some ["faculty"])).delivered) := by
  have h := unscoped_vs_scoped_broadcast
    [(1, ⟨10, "student"⟩), (2, ⟨20, "faculty"⟩)] (fun _ => true) 0 1
    ⟨10, "student"⟩ (by decide) (by decide)
  refine ⟨h.1.mpr rfl, fun hc => ?_⟩
  have := (h.2.2.2.mp hc).2
  exact absurd this (by decide)

theorem dictGet_eq_none_iff (reg : Registry) (uid : Nat) :
    dictGet reg uid = none ↔ uid ∉ reg.map Prod.fst := by
  induction reg with
  | nil => simp [dictGet]
  | cons p rest ih =>
    by_cases hq : p.1 = uid
    · simp [dictGet, hq]
    · have hbeq : (p.1 == uid) = false := by simpa using hq
      have hstep : dictGet (p :: rest) uid = dictGet rest uid := by
        simp [dictGet, hbeq]
      rw [hstep, ih]
      simp [Ne.symm hq]

/-- C10: disconnect removes by recipient id alone and ignores which
channel is passed; hence after a last-writer-wins replacement of a
recipient's connection, a disconnect signalled with the superseded old
channel still removes the current (new) entry for that recipient. -/
theorem disconnect_ignores_channel (reg : Registry) (ws1 ws2 : Nat)
    (user_id : Nat) (wsOld wsNew : Nat) (roleOld roleNew : String) :
    disconnect reg ws1 user_id = disconnect reg ws2 user_id
    ∧ dictGet
        (disconnect
          (connect (connect reg wsOld user_id roleOld) wsNew user_id roleNew)
          wsOld user_id)
        user_id = none := by
  constructor
  · rfl
  · show dictGet (List.filter _ _) user_id = none
    generalize connect (connect reg wsOld user_id roleOld) wsNew user_id
      roleNew = reg2
    induction reg2 with
    | nil => rfl
    | cons p rest ih =>
      by_cases hp : p.1 = user_id
      · simpa [List.filter_cons, hp] using ih
      · have hb : (p.1 != user_id) = true := by simpa using hp
        simp only [List.filter_cons, hb, if_pos]
        have hbeq : (p.1 == user_id) = false := by simpa using hp
        simpa [dictGet, hbeq] using ih

/-! Registry insertion lemmas for the last-writer-wins invariant. -/

theorem dictGet_dictSet_self (reg : Registry) (uid : Nat) (v : ConnInfo) :
    dictGet (dictSet reg uid v) uid = some v := by
  induction reg with
  | nil => simp [dictSet, dictGet]
  | cons p rest ih =>
    by_cases hq : p.1 == uid
    · simp [dictSet, hq, dictGet]
    · simp only [dictSet, hq, Bool.false_eq_true, if_neg, if_false]
      simpa [dictGet, hq] using ih

theorem dictGet_dictSet_ne (reg : Registry) (uid uid2 : Nat) (v : ConnInfo)
    (h : uid2 ≠ uid) :
    dictGet (dictSet reg uid v) uid2 = dictGet reg uid2 := by
  induction reg with
  | nil =>
    have hb : (uid == uid2) = false := by simpa using (Ne.symm h)
    simp [dictSet, dictGet, hb]
  | cons p rest ih =>
    by_cases hq : p.1 == uid
    · have hp1 : p.1 = uid := by simpa using hq
      have hb : (uid == uid2) = false := by simpa using (Ne.symm h)
      have hb2 : (p.1 == uid2) = false := by rw [hp1]; exact hb
      simp [dictSet, hq, dictGet, hb, hb2]
    · simp only [dictSet, hq, Bool.false_eq_true, if_neg, if_false]
      by_cases hq2 : p.1 == uid2
      · simp [dictGet, hq2]
      · simp [dictGet, hq2, ih]

theorem map_fst_dictSet (reg : Registry) (uid : Nat) (v : ConnInfo) :
    (dictSet reg uid v).map Prod.fst =
      if (dictGet reg uid).isSome then reg.map Prod.fst
      else reg.map Prod.fst ++ [uid] := by
  induction reg with
  | nil => simp [dictSet, dictGet]
  | cons p rest ih =>
    by_cases hq : p.1 == uid
    · have hp1 : p.1 = uid := by simpa using hq
      simp [dictSet, hq, dictGet, hp1]
    · simp only [dictSet, hq, Bool.false_eq_true, if_neg, if_false,
        List.map_cons]
      have hg : dictGet (p :: rest) uid = dictGet rest uid := by
        simp [dictGet, hq]
      rw [hg, ih]
      by_cases hs : (dictGet rest uid).isSome <;> simp [hs]

theorem uniqueKeys_dictSet (reg : Registry) (uid : Nat) (v : ConnInfo)
    (h : uniqueKeys reg) : uniqueKeys (dictSet reg uid v) := by
  unfold uniqueKeys
  rw [map_fst_dictSet]
  by_cases hs : (dictGet reg uid).isSome
  · simpa [hs] using h
  · rw [if_neg hs]
    have hnot : uid ∉ reg.map Prod.fst := by
      apply (dictGet_eq_none_iff reg uid).mp
      cases hg : dictGet reg uid
      · rfl
      · rw [hg] at hs; simp at hs
    refine List.nodup_append.mpr ⟨h, List.nodup_singleton uid, ?_⟩
    intro a ha hamem
    rw [List.mem_singleton.mp hamem] at ha
    exact hnot ha

theorem length_dictSet (reg : Registry) (uid : Nat) (v : ConnInfo) :
    (dictSet reg uid v).length =
      if (dictGet reg uid).isSome then reg.length else reg.length + 1 := by
  have h1 : (dictSet reg uid v).length =
      ((dictSet reg uid v).map Prod.fst).length := by
    rw [List.length_map]
  rw [h1, map_fst_dictSet]
  by_cases hs : (dictGet reg uid).isSome <;> simp [hs]

theorem count_key_entries (reg : Registry) (uid : Nat) (h : uniqueKeys reg) :
    (reg.filter (fun p => p.1 == uid)).length =
      if (dictGet reg uid).isSome then 1 else 0 := by
  induction reg with
  | nil => simp [dictGet]
  | cons p rest ih =>
    obtain ⟨hnot, hrest⟩ := uniqueKeys_cons h
    by_cases hq : p.1 == uid
    · have hp1 : p.1 = uid := by simpa using hq
      have hrnone : dictGet rest uid = none := by
        apply (dictGet_eq_none_iff rest uid).mpr
        rw [← hp1]
        exact hnot
      simp [List.filter_cons, hq, dictGet, ih hrest, hrnone]
    · have hg : dictGet (p :: rest) uid = dictGet rest uid := by
        simp [dictGet, hq]
      simp only [List.filter_cons, hq, Bool.false_eq_true, if_neg, if_false]
      rw [hg, ih hrest]

theorem dictGet_dictDel_self (reg : Registry) (uid : Nat) :
    dictGet (dictDel reg uid) uid = none := by
  induction reg with
  | nil => rfl
  | cons p rest ih =>
    by_cases hp : p.1 = uid
    · simpa [dictDel, List.filter_cons, hp] using ih
    · have hb : (p.1 != uid) = true := by simpa using hp
      have hbeq : (p.1 == uid) = false := by simpa using hp
      simp only [dictDel, List.filter_cons, hb, if_pos]
      simpa [dictGet, hbeq] using ih

theorem dictGet_dictDel_ne (reg : Registry) (uid uid2 : Nat)
    (h : uid2 ≠ uid) :
    dictGet (dictDel reg uid) uid2 = dictGet reg uid2 := by
  induction reg with
  | nil => rfl
  | cons p rest ih =>
    by_cases hp : p.1 = uid
    · have hbeq2 : (p.1 == uid2) = false := by
        rw [hp]
        simpa using (Ne.symm h)
      simp only [dictDel, List.filter_cons]
      rw [if_neg (by simp [hp])]
      rw [show dictGet (p :: rest) uid2 = dictGet rest uid2 from by
        simp [dictGet, hbeq2]]
      exact ih
    · have hb : (p.1 != uid) = true := by simpa using hp
      simp only [dictDel, List.filter_cons, hb, if_pos]
      by_cases hq : p.1 == uid2
      · simp [dictGet, hq]
      · simpa [dictGet, hq] using ih

/-- C6: disconnect (remove) is total and never raises: when no entry
for the id exists the registry is returned unchanged (a silent no-op);
when an entry exists it is deleted - afterwards the id resolves to
nothing, every other id resolves as before, and the count drops by
exactly one; and removing the same id twice equals removing it once. -/
theorem disconnect_idempotent (reg : Registry) (websocket : Nat)
    (user_id : Nat) :
    (dictGet reg user_id = none → disconnect reg websocket user_id = reg)
    ∧ dictGet (disconnect reg websocket user_id) user_id = none
    ∧ (∀ uid2, uid2 ≠ user_id →
        dictGet (disconnect reg websocket user_id) uid2 = dictGet reg uid2)
    ∧ (uniqueKeys reg → ∀ info, dictGet reg user_id = some info →
        get_active_users_count (disconnect reg websocket user_id) + 1 =
          get_active_users_count reg)
    ∧ disconnect (disconnect reg websocket user_id) websocket user_id =
        disconnect reg websocket user_id := by
  refine ⟨?_, dictGet_dictDel_self reg user_id,
    fun uid2 h2 => dictGet_dictDel_ne reg user_id uid2 h2, ?_, ?_⟩
  · intro habs
    apply List.filter_eq_self.mpr
    intro p hp
    obtain ⟨uid, info⟩ := p
    show (uid != user_id) = true
    rcases eq_or_ne uid user_id with heq | hne
    · exact absurd (List.mem_map.mpr ⟨(uid, info), hp, heq⟩)
        ((dictGet_eq_none_iff reg user_id).mp habs)
    · simpa using hne
  · intro huk info hget
    have hcnt := count_key_entries reg user_id huk
    rw [hget] at hcnt
    simp only [Option.isSome_some, if_pos] at hcnt
    have hsplit := length_filter_split reg (fun p => p.1 == user_id)
    have hfe : disconnect reg websocket user_id =
        reg.filter (fun p => !(p.1 == user_id)) := rfl
    show (disconnect reg websocket user_id).length + 1 = reg.length
    rw [hfe]
    omega
  · show (List.filter _ _).filter _ = _
    rw [List.filter_filter]
    apply List.filter_congr
    intro p _
    rw [Bool.and_self]

/-- Witness for C6: removing an absent id leaves a one-entry registry
unchanged; removing a present id deletes exactly that entry and drops
the count from 2 to 1. -/
theorem disconnect_idempotent_witness :
    disconnect [(1, ⟨10, "student"⟩)] 99 2 = [(1, ⟨10, "student"⟩)]
    ∧ dictGet
        (disconnect [(1, ⟨10, "student"⟩), (2, ⟨20, "faculty"⟩)] 99 2) 2 =
        none
    ∧ dictGet
        (disconnect [(1, ⟨10, "student"⟩), (2, ⟨20, "faculty"⟩)] 99 2) 1 =
        some ⟨10, "student"⟩
    ∧ get_active_users_count
        (disconnect [(1, ⟨10, "student"⟩), (2, ⟨20, "faculty"⟩)] 99 2) + 1 =
        2 := by
  have h1 := disconnect_idempotent [(1, ⟨10, "student"⟩)] 99 2
  have h2 := disconnect_idempotent
    [(1, ⟨10, "student"⟩), (2, ⟨20, "faculty"⟩)] 99 2
  refine ⟨h1.1 (by decide), h2.2.1, ?_, ?_⟩
  · rw [h2.2.2.1 1 (by decide)]
    decide
  · exact h2.2.2.2.1 (by decide) ⟨20, "faculty"⟩ (by decide)

theorem applyConnects_uniqueKeys (reg : Registry)
    (calls : List (Nat × Nat × String)) (h : uniqueKeys reg) :
    uniqueKeys (applyConnects reg calls) := by
  induction calls generalizing reg with
  | nil => exact h
  | cons c cs ih => exact ih _ (uniqueKeys_dictSet reg c.1 _ h)

theorem applyConnects_no_call (reg : Registry) (uid : Nat)
    (calls : List (Nat × Nat × String)) (h : lastCallFor uid calls = none) :
    dictGet (applyConnects reg calls) uid = dictGet reg uid := by
  induction calls generalizing reg with
  | nil => rfl
  | cons c cs ih =>
    have hcs : lastCallFor uid cs = none := by
      cases hv : lastCallFor uid cs
      · rfl
      · rw [lastCallFor, hv] at h; cases h
    have hbeq : (c.1 == uid) = false := by
      rw [lastCallFor, hcs] at h
      by_cases hb : c.1 == uid
      · rw [if_pos hb] at h; cases h
      · simpa using hb
    have hne : uid ≠ c.1 := by
      intro hc
      rw [hc] at hbeq
      simp at hbeq
    show dictGet (applyConnects (connect reg c.2.1 c.1 c.2.2) cs) uid = _
    rw [ih _ hcs]
    exact dictGet_dictSet_ne reg c.1 uid _ hne

theorem applyConnects_last_call (reg : Registry) (uid w : Nat) (r : String)
    (calls : List (Nat × Nat × String))
    (h : lastCallFor uid calls = some (w, r)) :
    dictGet (applyConnects reg calls) uid = some ⟨w, r⟩ := by
  induction calls generalizing reg with
  | nil => cases h
  | cons c cs ih =>
    cases hv : lastCallFor uid cs with
    | some rr =>
      rw [lastCallFor, hv] at h
      cases h
      exact ih _ hv
    | none =>
      rw [lastCallFor, hv] at h
      by_cases hb : c.1 == uid
      · rw [if_pos hb] at h
        have hp1 : c.1 = uid := by simpa using hb
        show dictGet (applyConnects (connect reg c.2.1 c.1 c.2.2) cs) uid = _
        rw [applyConnects_no_call _ _ _ hv]
        rw [hp1]
        have := dictGet_dictSet_self reg uid ⟨c.2.1, c.2.2⟩
        rw [show connect reg c.2.1 uid c.2.2 =
          dictSet reg uid ⟨c.2.1, c.2.2⟩ from rfl, this]
        injection h with h2
        rw [h2]
      · rw [if_neg (by simpa using hb)] at h
        cases h

/-- C4: after any sequence of connect calls on a registry with distinct
keys, the keys stay distinct (at most one entry per user id); the entry
for a user id that was connected is exactly one and holds the channel
and role of that id's most recent call; and one connect grows the count
by one for a new id and leaves it unchanged on a replacement. -/
theorem connect_last_writer_wins (reg : Registry)
    (calls : List (Nat × Nat × String)) (h : uniqueKeys reg) :
    uniqueKeys (applyConnects reg calls)
    ∧ (∀ uid w r, lastCallFor uid calls = some (w, r) →
        dictGet (applyConnects reg calls) uid = some ⟨w, r⟩
        ∧ ((applyConnects reg calls).filter
            (fun p => p.1 == uid)).length = 1)
    ∧ (∀ w uid r, get_active_users_count (connect reg w uid r) =
        if (dictGet reg uid).isSome then get_active_users_count reg
        else get_active_users_count reg + 1) := by
  refine ⟨applyConnects_uniqueKeys reg calls h, ?_, ?_⟩
  · intro uid w r hlast
    have hget := applyConnects_last_call reg uid w r calls hlast
    refine ⟨hget, ?_⟩
    rw [count_key_entries _ _ (applyConnects_uniqueKeys reg calls h), hget]
    rfl
  · intro w uid r
    exact length_dictSet reg uid ⟨w, r⟩

/-- Witness for C4: two connects for the same id leave one entry with
the most recent channel and role. -/
theorem connect_last_writer_wins_witness :
    dictGet (applyConnects [] [(5, 10, "student"), (5, 11, "faculty")]) 5 =
      some ⟨11, "faculty"⟩ ∧
    (applyConnects [] [(5, 10, "student"), (5, 11, "faculty")]).length = 1 := by
  have h := connect_last_writer_wins []
    [(5, 10, "student"), (5, 11, "faculty")] (by decide)
  have h2 := h.2.1 5 11 "faculty" (by decide)
  exact ⟨h2.1, by decide⟩

/-- C5: every handshake validation failure closes the transport with a
distinct reason and leaves the registry untouched; the registry is
mutated (via connect) only when every validation step succeeds. -/
theorem websocket_endpoint_validation (reg : Registry) (websocket : Nat)
    (user_id : Nat) (token : Option String)
    (decode : String → Option TokenData) (findUser : Nat → Option UserRec) :
    (∀ c s,
      (websocket_endpoint reg websocket user_id token decode findUser).2 =
        WsOutcome.closed c s →
      (websocket_endpoint reg websocket user_id token decode findUser).1 =
        reg)
    ∧ (token = none →
        (websocket_endpoint reg websocket user_id token decode findUser).2 =
          WsOutcome.closed 1008 "No token provided")
    ∧ (∀ t, token = some t → decode t = none →
        (websocket_endpoint reg websocket user_id token decode findUser).2 =
          WsOutcome.closed 1008 "Invalid token")
    ∧ (∀ t td, token = some t → decode t = some td →
        td.user_id ≠ user_id →
        (websocket_endpoint reg websocket user_id token decode findUser).2 =
          WsOutcome.closed 1008 "Token user_id mismatch")
    ∧ (∀ t td, token = some t → decode t = some td →
        td.user_id = user_id → findUser user_id = none →
        (websocket_endpoint reg websocket user_id token decode findUser).2 =
          WsOutcome.closed 1008 "User not found")
    ∧ (∀ t td u, token = some t → decode t = some td →
        td.user_id = user_id → findUser user_id = some u →
        u.is_active = false →
        (websocket_endpoint reg websocket user_id token decode findUser).2 =
          WsOutcome.closed 1008 "Account deactivated")
    ∧ (∀ t td u, token = some t → decode t = some td →
        td.user_id = user_id → findUser user_id = some u →
        u.is_active = true →
        (websocket_endpoint reg websocket user_id token decode findUser).1 =
          connect reg websocket user_id u.role ∧
        (websocket_endpoint reg websocket user_id token decode findUser).2 =
          WsOutcome.connected u.role)
    ∧ (["No token provided", "Invalid token", "Token user_id mismatch",
        "User not found", "Account deactivated"] : List String).Nodup := by
  refine ⟨?_, ?_, ?_, ?_, ?_, ?_, ?_, by decide⟩
  · intro c s
    cases token with
    | none => intro _; rfl
    | some t =>
      cases hd : decode t with
      | none => simp [websocket_endpoint, hd]
      | some td =>
        by_cases hm : td.user_id != user_id
        · simp [websocket_endpoint, hd, hm]
        · cases hf : findUser user_id with
          | none => simp [websocket_endpoint, hd, hm, hf]
          | some u =>
            cases ha : u.is_active
            · simp [websocket_endpoint, hd, hm, hf, ha]
            · intro hc
              simp [websocket_endpoint, hd, hm, hf, ha] at hc
  · intro ht; rw [ht]; rfl
  · intro t ht hd; rw [ht]; simp [websocket_endpoint, hd]
  · intro t td ht hd hm
    rw [ht]
    have hb : (td.user_id != user_id) = true := by simpa using hm
    simp [websocket_endpoint, hd, hb]
  · intro t td ht hd hm hf
    rw [ht]
    have hb : (td.user_id != user_id) = false := by simpa using hm
    simp [websocket_endpoint, hd, hb, hf]
  · intro t td u ht hd hm hf ha
    rw [ht]
    have hb : (td.user_id != user_id) = false := by simpa using hm
    simp [websocket_endpoint, hd, hb, hf, ha]
  · intro t td u ht hd hm hf ha
    rw [ht]
    have hb : (td.user_id != user_id) = false := by simpa using hm
    constructor <;> simp [websocket_endpoint, hd, hb, hf, ha]

/-- Witness for C5: a concrete failed handshake (no token) leaves the
registry unchanged, and a concrete successful one registers. -/
theorem websocket_endpoint_validation_witness :
    (websocket_endpoint [(1, ⟨10, "student"⟩)] 50 7 none
      (fun _ => some ⟨7, "u", "student"⟩)
      (fun _ => some ⟨"student", true⟩)).2 =
        WsOutcome.closed 1008 "No token provided" ∧
    (websocket_endpoint [(1, ⟨10, "student"⟩)] 50 7 none
      (fun _ => some ⟨7, "u", "student"⟩)
      (fun _ => some ⟨"student", true⟩)).1 = [(1, ⟨10, "student"⟩)] ∧
    (websocket_endpoint [] 50 7 (some "tok")
      (fun _ => some ⟨7, "u", "student"⟩)
      (fun _ => some ⟨"student", true⟩)).2 = WsOutcome.connected "student" := by
  have h1 := websocket_endpoint_validation [(1, ⟨10, "student"⟩)] 50 7 none
    (fun _ => some ⟨7, "u", "student"⟩) (fun _ => some ⟨"student", true⟩)
  have h2 := websocket_endpoint_validation [] 50 7 (some "tok")
    (fun _ => some ⟨7, "u", "student"⟩) (fun _ => some ⟨"student", true⟩)
  refine ⟨h1.2.1 rfl, ?_, ?_⟩
  · exact h1.1 1008 "No token provided" (h1.2.1 rfl)
  · exact (h2.2.2.2.2.2.2.1 "tok" ⟨7, "u", "student"⟩ ⟨"student", true⟩
      rfl rfl rfl rfl rfl).2

theorem fanoutE_ok (sendOk : Nat → Bool) (shouldReceive : ConnInfo → Bool)
    (reg : Registry) :
    fanoutE sendOk shouldReceive reg =
      Except.ok (fanout sendOk shouldReceive reg) := by
  induction reg with
  | nil => rfl
  | cons p rest ih =>
    simp only [fanoutE, ih]
    by_cases h : shouldReceive p.2 <;>
      by_cases h2 : sendOk p.2.ws <;>
        simp [fanout, send_json, h, h2, Except.bind, bind]

/-- C7: no send failure ever escapes a broadcast: in the error monad,
each of the four broadcast methods returns Except.ok of its pure
result for every registry and every combination of failing channels,
so a delivery failure is never surfaced to the mutation handler that
triggered the broadcast. -/
theorem broadcasts_never_raise (reg : Registry) (sendOk : Nat → Bool)
    (target_roles : Option (List String)) (alert_id : Nat) :
    broadcast_alertE reg sendOk target_roles =
      Except.ok (broadcast_alert reg sendOk target_roles)
    ∧ broadcast_reactionE reg sendOk =
        Except.ok (broadcast_reaction reg sendOk)
    ∧ broadcast_alert_deletionE reg sendOk alert_id =
        Except.ok (broadcast_alert_deletion reg sendOk alert_id)
    ∧ broadcast_acknowledgmentE reg sendOk =
        Except.ok (broadcast_acknowledgment reg sendOk) := by
  refine ⟨?_, ?_, ?_, ?_⟩
  · simp only [broadcast_alertE, fanoutE_ok]; rfl
  · simp only [broadcast_reactionE, fanoutE_ok]; rfl
  · simp only [broadcast_alert_deletionE, fanoutE_ok]; rfl
  · simp only [broadcast_acknowledgmentE, fanoutE_ok]; rfl

/-- C8 counterexample: the bulk-delete endpoint with one active alert
broadcasts the deletion before its only commit, so it is not true
that every mutation endpoint broadcasts only after its durable write
has committed. -/
theorem bulk_delete_broadcast_before_commit :
    bulk_delete_alerts_trace [true] =
      [Act.dbWrite "deactivate alert", Act.wsBroadcast "alert_deleted",
        Act.dbCommit]
    ∧ broadcastsAfterCommit false (bulk_delete_alerts_trace [true]) = false := by
  decide

theorem bulkDeleteWrites_no_commit (alerts : List Bool) (seen : Bool) :
    broadcastsAfterCommit seen (bulkDeleteWrites alerts ++ [Act.dbCommit]) =
      broadcastsAfterCommit seen (bulkDeleteWrites alerts) := by
  induction alerts generalizing seen with
  | nil => rfl
  | cons a rest ih =>
    by_cases h : a <;> simp [bulkDeleteWrites, h, broadcastsAfterCommit, ih]

theorem bulkDeleteWrites_broadcast_count (alerts : List Bool) :
    ((bulkDeleteWrites alerts).filter isBroadcastAct).length =
      alerts.count true := by
  induction alerts with
  | nil => rfl
  | cons a rest ih =>
    by_cases h : a <;>
      simp [bulkDeleteWrites, h, List.filter_cons, isBroadcastAct, ih,
        List.count_cons]

/-- C8 amended: each single-mutation endpoint (alert create, delete,
permanent delete, reaction add and remove, acknowledgment) issues its
broadcast only after its db commit, and the broadcasts of one
endpoint call are issued synchronously in handler order; the
bulk-delete endpoint however issues one deletion broadcast per
deactivated alert (one per true entry, in request order) before its
single commit, which is the last action of its trace. -/
theorem broadcast_commit_order (allowed found1 found2 ok found3 found4
    already : Bool) (alerts : List Bool) :
    broadcastsAfterCommit false (create_alert_trace allowed) = true
    ∧ broadcastsAfterCommit false (delete_alert_trace found1) = true
    ∧ broadcastsAfterCommit false (permanent_delete_alert_trace found2) = true
    ∧ broadcastsAfterCommit false (add_reaction_trace ok) = true
    ∧ broadcastsAfterCommit false (remove_reaction_trace found3) = true
    ∧ broadcastsAfterCommit false
        (acknowledge_alert_trace found4 already) = true
    ∧ (bulk_delete_alerts_trace alerts).getLast? = some Act.dbCommit
    ∧ ((bulk_delete_alerts_trace alerts).filter isBroadcastAct).length =
        alerts.count true := by
  refine ⟨?_, ?_, ?_, ?_, ?_, ?_, ?_, ?_⟩
  · cases allowed <;> decide
  · cases found1 <;> decide
  · cases found2 <;> decide
  · cases ok <;> decide
  · cases found3 <;> decide
  · cases found4 <;> cases already <;> decide
  · rw [bulk_delete_alerts_trace]
    exact List.getLast?_concat _
  · rw [bulk_delete_alerts_trace, List.filter_append]
    simp [isBroadcastAct, bulkDeleteWrites_broadcast_count]

/-- C9 counterexample: with two registered students and a concurrent
connect that replaces the second student's channel (20 becomes 99)
during the suspension after the first send, the fan-out sends to the
replacing channel 99 - the interleaved register IS reflected in the
fan-out, unlike an iteration over a point-in-time snapshot, which
would send to channel 20. -/
theorem broadcast_iterates_live_table :
    (broadcast_alert_live [(1, ⟨10, "student"⟩), (2, ⟨20, "student"⟩)]
      (fun _ => true) none
      (fun i r => if i = 0 then connect r 99 2 "student" else r)).2 =
      [(1, 10), (2, 99)]
    ∧ (broadcast_alert [(1, ⟨10, "student"⟩), (2, ⟨20, "student"⟩)]
      (fun _ => true) none).attempted = [(1, 10), (2, 20)] := by
  constructor
  · rfl
  · rfl

theorem dictGet_append_not_mem (pre rest : Registry) (uid : Nat)
    (v : ConnInfo) (h : uid ∉ pre.map Prod.fst) :
    dictGet (pre ++ (uid, v) :: rest) uid = some v := by
  induction pre with
  | nil => simp [dictGet]
  | cons p pre2 ih =>
    have hne : p.1 ≠ uid := by
      intro hc
      exact h (by rw [← hc]; exact List.mem_cons_self _ _)
    have hb : (p.1 == uid) = false := by simpa using hne
    have h2 : uid ∉ pre2.map Prod.fst := by
      intro hc
      exact h (List.mem_cons_of_mem _ hc)
    simpa [dictGet, hb] using ih h2

theorem liveFanout_id (sendOk : Nat → Bool) (f : ConnInfo → Bool) :
    ∀ (cur pre : Registry) (i : Nat), uniqueKeys (pre ++ cur) →
    liveFanout sendOk f (fun _ r => r) (pre ++ cur) i (cur.map Prod.fst) =
      ((fanout sendOk f cur).attempted, (fanout sendOk f cur).dead,
        pre ++ cur) := by
  intro cur
  induction cur with
  | nil => intro pre i h; simp [liveFanout, fanout]
  | cons q rest ih =>
    intro pre i h
    have hq : q.1 ∉ pre.map Prod.fst := by
      intro hc
      have : ¬ (pre.map Prod.fst ++ (q :: rest).map Prod.fst).Nodup := by
        intro hn
        have hd := List.disjoint_of_nodup_append hn
        exact hd hc (List.mem_cons_self _ _)
      rw [← List.map_append] at this
      exact this h
    have hassoc : (pre ++ [q]) ++ rest = pre ++ q :: rest := by
      simp
    have hget : dictGet (pre ++ q :: rest) q.1 = some q.2 := by
      have := dictGet_append_not_mem pre rest q.1 q.2 hq
      simpa using this
    have h2 : uniqueKeys ((pre ++ [q]) ++ rest) := by
      rw [hassoc]; exact h
    show liveFanout sendOk f (fun _ r => r) (pre ++ q :: rest) i
      (q.1 :: rest.map Prod.fst) = _
    rw [liveFanout, hget]
    by_cases hf : f q.2
    · have hrec := ih (pre ++ [q]) (i + 1) h2
      rw [hassoc] at hrec
      by_cases hs : sendOk q.2.ws <;>
        simp [hf, hs, hrec, fanout]
    · have hrec := ih (pre ++ [q]) i h2
      rw [hassoc] at hrec
      simp [hf, hrec, fanout]

/-- C9 amended: the source's broadcast iterates the live connection
table, not an immutable snapshot.  With no interleaved mutation the
fan-out coincides with iterating the table as it was at the start of
the call (sends and purge as in broadcast_alert); but a register call
that races with the fan-out and replaces a not-yet-visited entry IS
reflected: for two distinct in-scope recipients, a replacement of the
second entry's channel arriving during the first send's suspension
makes the fan-out deliver to the replacing channel. -/
theorem broadcast_live_semantics (reg : Registry) (sendOk : Nat → Bool)
    (target_roles : Option (List String)) (h : uniqueKeys reg) :
    ((broadcast_alert_live reg sendOk target_roles (fun _ r => r)).2 =
      (broadcast_alert reg sendOk target_roles).attempted
    ∧ (broadcast_alert_live reg sendOk target_roles (fun _ r => r)).1 =
      (broadcast_alert reg sendOk target_roles).conns)
    ∧ ∀ (a b : Nat) (ia ib ib2 : ConnInfo), (a == b) = false →
      (broadcast_alert_live [(a, ia), (b, ib)] (fun _ => true) none
        (fun i r => if i = 0 then connect r ib2.ws b ib2.role else r)).2 =
        [(a, ia.ws), (b, ib2.ws)] := by
  constructor
  · have hrun := liveFanout_id sendOk (alertShouldReceive target_roles) reg
      [] 0 (by simpa using h)
    rw [List.nil_append] at hrun
    constructor
    · show (liveFanout sendOk (alertShouldReceive target_roles)
        (fun _ r => r) reg 0 (reg.map Prod.fst)).1 = _
      rw [hrun]
      rfl
    · show purgeDead
        (liveFanout sendOk (alertShouldReceive target_roles)
          (fun _ r => r) reg 0 (reg.map Prod.fst)).2.2
        (liveFanout sendOk (alertShouldReceive target_roles)
          (fun _ r => r) reg 0 (reg.map Prod.fst)).2.1 = _
      rw [hrun]
      rfl
  · intro a b ia ib ib2 hab
    have hsr : ∀ info : ConnInfo, alertShouldReceive none info = true := by
      intro info
      simp [alertShouldReceive, effectiveTargetRoles, normalizeRoles_all,
        List.contains_cons]
    simp [broadcast_alert_live, liveFanout, dictGet, connect, dictSet,
      hab, hsr]

/-- Witness for the amended C9 statement at concrete registries. -/
theorem broadcast_live_semantics_witness :
    (broadcast_alert_live [(7, ⟨70, "faculty"⟩)] (fun _ => true) none
      (fun _ r => r)).2 =
      (broadcast_alert [(7, ⟨70, "faculty"⟩)] (fun _ => true) none).attempted
    ∧ (broadcast_alert_live [(1, ⟨10, "student"⟩), (2, ⟨20, "student"⟩)]
      (fun _ => true) none
      (fun i r => if i = 0 then connect r 99 2 "student" else r)).2 =
      [(1, 10), (2, 99)] := by
  have h := broadcast_live_semantics [(7, ⟨70, "faculty"⟩)] (fun _ => true)
    none (by decide)
  exact ⟨h.1.1,
    h.2 1 2 ⟨10, "student"⟩ ⟨20, "student"⟩ ⟨99, "student"⟩ (by decide)⟩
